import Mathlib

/-!
Verification of the TerraCost-AWS Terraform cost analyzer
(`terraform_cost_analyzer.py`) against its natural-language specification.

The Python module works on untyped JSON-like dictionaries; we embed those as
the inductive `PyValue`.  Python exceptions are embedded as `Except PyErr`,
machine floats as exact rationals, and the two external effects (the Bedrock
inference backend and the wall clock) as explicit parameters.
-/

namespace TerraCost

/-- Exact rational numbers carried as an integer numerator over the always
positive denominator `d1 + 1`.  Python's numeric tower (ints and IEEE floats)
is embedded into these exact fractions; keeping them unnormalized makes every
arithmetic step a plain integer computation, so concrete runs of the model
evaluate inside the kernel.  `toRat` gives the mathematical value. -/
structure PyNum where
  n : ℤ
  d1 : ℕ
deriving DecidableEq, Repr

/-- The (positive) denominator. -/
def PyNum.den (q : PyNum) : ℕ := q.d1 + 1

/-- The rational value represented. -/
def PyNum.toRat (q : PyNum) : ℚ := (q.n : ℚ) / (q.den : ℚ)

/-- Embed an integer. -/
def PyNum.ofInt (i : ℤ) : PyNum := ⟨i, 0⟩

/-- Exact addition: `a/b + c/d = (a*d + c*b)/(b*d)`. -/
def PyNum.add (a b : PyNum) : PyNum :=
  ⟨a.n * (b.den : ℤ) + b.n * (a.den : ℤ), a.d1 * b.d1 + a.d1 + b.d1⟩

/-- Negation. -/
def PyNum.neg (a : PyNum) : PyNum := ⟨-a.n, a.d1⟩

/-- Multiply by a signed power of ten (used for the exponent part of JSON
numbers). -/
def PyNum.mulPow10 (a : PyNum) : ℤ → PyNum
  | .ofNat k => ⟨a.n * (10 : ℤ) ^ k, a.d1⟩
  | .negSucc m => ⟨a.n, (a.d1 + 1) * 10 ^ (m + 1) - 1⟩

/-- JSON-like Python values as they flow through the analyzer: `None`,
booleans, numbers (exact rationals), strings, lists and string-keyed dicts
(association lists in insertion order, keys unique). -/
inductive PyValue where
  | null
  | bool (b : Bool)
  | num (q : PyNum)
  | str (s : String)
  | list (xs : List PyValue)
  | dict (kvs : List (String × PyValue))

/-- Python exceptions that the analyzer's code paths can raise. -/
inductive PyErr where
  | typeError
  | attributeError
  | valueError
  | keyError (k : String)
deriving DecidableEq, Repr

/-- Left-brace character (written by code point). -/
def lbrace : Char := '\x7b'

/-- Right-brace character (written by code point). -/
def rbrace : Char := '\x7d'

/-- Association-list lookup on a Python dict body: first binding wins
(keys are unique in dicts built by the embedding). -/
def lookupD (kvs : List (String × PyValue)) (k : String) : Option PyValue :=
  (kvs.find? (fun p => p.1 = k)).map (fun p => p.2)

/-- Python dict assignment `d[k] = v`: updates the existing binding in place
(keeping its position, as Python dicts do) or appends a new one. -/
def dictInsert : List (String × PyValue) → String → PyValue → List (String × PyValue)
  | [], k, v => [(k, v)]
  | (k', v') :: rest, k, v =>
      if k' = k then (k', v) :: rest else (k', v') :: dictInsert rest k v

/-- Python truthiness (`if x:`) for the embedded values. -/
def pyTruthy : PyValue → Bool
  | .null => false
  | .bool b => b
  | .num q => q.n != 0
  | .str s => s ≠ ""
  | .list xs => !xs.isEmpty
  | .dict kvs => !kvs.isEmpty

/-- Whether `pat` occurs as a contiguous substring of `s`
(Python `pat in s` on strings). -/
def listInfix (pat : List Char) (s : List Char) : Bool :=
  match s with
  | [] => pat.isEmpty
  | _ :: rest => pat.isPrefixOf s || listInfix pat rest

/-- Python `==` between an arbitrary value and a string: true exactly for the
equal string (numbers, booleans, containers never equal a string). -/
def eqStr (k : String) : PyValue → Bool
  | .str s => s = k
  | _ => false

/-- Python membership `k in v` for a string `k`: key lookup on dicts, element
equality on lists, substring test on strings, `TypeError` otherwise. -/
def pyContains (k : String) : PyValue → Except PyErr Bool
  | .dict kvs => .ok (kvs.any (fun p => p.1 = k))
  | .list xs => .ok (xs.any (eqStr k))
  | .str s => .ok (listInfix k.toList s.toList)
  | _ => .error .typeError

/-- Python `v.get(k, d)` : defaulted key lookup, `AttributeError` when `v` is
not a dict. -/
def pyGetD (v : PyValue) (k : String) (d : PyValue) : Except PyErr PyValue :=
  match v with
  | .dict kvs => .ok ((lookupD kvs k).getD d)
  | _ => .error .attributeError

/-- Python `v[k]` for a string key: `KeyError` on a dict without the key,
`TypeError` on non-dicts (list/string indices must be integers). -/
def pySubscript (v : PyValue) (k : String) : Except PyErr PyValue :=
  match v with
  | .dict kvs =>
      match lookupD kvs k with
      | some w => .ok w
      | none => .error (.keyError k)
  | _ => .error .typeError

/-- Python iteration `for x in v`: elements of a list, one-character strings
of a string, keys of a dict, `TypeError` otherwise. -/
def pyIter : PyValue → Except PyErr (List PyValue)
  | .list xs => .ok xs
  | .str s => .ok (s.toList.map (fun c => .str (String.mk [c])))
  | .dict kvs => .ok (kvs.map (fun p => .str p.1))
  | _ => .error .typeError

/-- Numeric coercion used by `float + x`: numbers pass through, booleans count
as 0/1 (Python bools are ints), anything else is a `TypeError`. -/
def pyToNum : PyValue → Option PyNum
  | .num q => some q
  | .bool b => some (.ofInt (if b then 1 else 0))
  | _ => none

/-- `str()` rendering used inside f-strings.  Strings pass through verbatim;
the rendering of non-string scalars is approximated (Python prints floats via
their shortest decimal form, which the rational embedding does not track); no
verified property depends on it. -/
def pyStr : PyValue → String
  | .null => "None"
  | .bool b => if b then "True" else "False"
  | .num q => if q.d1 = 0 then toString q.n else toString q.n ++ "/" ++ toString q.den
  | .str s => s
  | .list _ => "[...]"
  | .dict _ => String.mk [lbrace, '.', '.', '.', rbrace]

/-! ## A model of `json.loads`

The analyzer decodes model replies with Python's `json.loads`.  We embed it as
a strict recursive-descent parser over the JSON grammar (objects, arrays,
strings with escapes, numbers, `true`/`false`/`null`), numbers read as exact
rationals.  Duplicate object keys keep the last binding, as `json.loads` does,
and trailing non-whitespace input is rejected ("Extra data").  The non-finite
extensions (`NaN`, `Infinity`) fall outside the rational embedding and are
rejected. -/

/-- JSON whitespace. -/
def isWs (c : Char) : Bool := c = ' ' || c = '\t' || c = '\n' || c = '\r'

/-- Drop leading JSON whitespace. -/
def skipWs : List Char → List Char
  | [] => []
  | c :: cs => if isWs c then skipWs cs else c :: cs

/-- Value of a hex digit, if any. -/
def hexVal (c : Char) : Option Nat :=
  if '0' ≤ c ∧ c ≤ '9' then some (c.toNat - '0'.toNat)
  else if 'a' ≤ c ∧ c ≤ 'f' then some (c.toNat - 'a'.toNat + 10)
  else if 'A' ≤ c ∧ c ≤ 'F' then some (c.toNat - 'A'.toNat + 10)
  else none

/-- One-character JSON string escapes. -/
def escChar : Char → Option Char
  | '"' => some '"'
  | '\\' => some '\\'
  | '/' => some '/'
  | 'b' => some '\x08'
  | 'f' => some '\x0c'
  | 'n' => some '\n'
  | 'r' => some '\r'
  | 't' => some '\t'
  | _ => none

/-- Parse the body of a JSON string after the opening quote, returning the
decoded characters and the input after the closing quote. -/
def parseStringBody : List Char → Option (List Char × List Char)
  | [] => Option.none
  | '"' :: rest => some ([], rest)
  | '\\' :: 'u' :: h1 :: h2 :: h3 :: h4 :: rest => do
      let a ← hexVal h1
      let b ← hexVal h2
      let c ← hexVal h3
      let d ← hexVal h4
      let p ← parseStringBody rest
      some (Char.ofNat (((a * 16 + b) * 16 + c) * 16 + d) :: p.1, p.2)
  | '\\' :: e :: rest => do
      let c ← escChar e
      let p ← parseStringBody rest
      some (c :: p.1, p.2)
  | c :: rest => do
      let p ← parseStringBody rest
      some (c :: p.1, p.2)

/-- Digits to a natural number. -/
def digitsToNat (ds : List Char) : Nat :=
  ds.foldl (fun a c => a * 10 + (c.toNat - '0'.toNat)) 0

/-- Parse a JSON number (sign, integer part without leading zeros, optional
fraction, optional exponent) as an exact rational. -/
def parseNumber (cs : List Char) : Option (PyNum × List Char) :=
  let (neg, cs1) := match cs with
    | '-' :: r => (true, r)
    | _ => (false, cs)
  let intDs := cs1.takeWhile Char.isDigit
  let rest1 := cs1.dropWhile Char.isDigit
  if intDs.isEmpty then none
  else if 2 ≤ intDs.length ∧ intDs.head? = some '0' then none
  else
    let withFrac : Option (PyNum × List Char) :=
      match rest1 with
      | '.' :: r =>
          let fds := r.takeWhile Char.isDigit
          if fds.isEmpty then none
          else some (⟨(digitsToNat intDs * 10 ^ fds.length + digitsToNat fds : ℕ),
                      10 ^ fds.length - 1⟩,
                r.dropWhile Char.isDigit)
      | _ => some (⟨(digitsToNat intDs : ℕ), 0⟩, rest1)
    match withFrac with
    | none => none
    | some (v, rest2) =>
      let withExp : Option (PyNum × List Char) :=
        match rest2 with
        | e :: r =>
          if e = 'e' ∨ e = 'E' then
            let (eneg, r1) := match r with
              | '-' :: r2 => (true, r2)
              | '+' :: r2 => (false, r2)
              | _ => (false, r)
            let eds := r1.takeWhile Char.isDigit
            if eds.isEmpty then none
            else
              let ev : ℤ := if eneg then -(digitsToNat eds : ℤ) else (digitsToNat eds : ℤ)
              some (v.mulPow10 ev, r1.dropWhile Char.isDigit)
          else some (v, rest2)
        | [] => some (v, rest2)
      match withExp with
      | none => none
      | some (w, rest3) => some (if neg then w.neg else w, rest3)

mutual

/-- Fuel-bounded JSON value parser; returns the value and the remaining
input.  Fuel one beyond the input length always suffices. -/
def parseValue : Nat → List Char → Option (PyValue × List Char)
  | 0, _ => Option.none
  | fuel + 1, cs =>
    match skipWs cs with
    | [] => Option.none
    | c :: rest =>
      if c = lbrace then
        match skipWs rest with
        | d :: rest2 =>
            if d = rbrace then some (.dict [], rest2)
            else (parseMembers fuel (d :: rest2) []).map (fun p => (.dict p.1, p.2))
        | [] => Option.none
      else if c = '[' then
        match skipWs rest with
        | ']' :: rest2 => some (.list [], rest2)
        | l => (parseElems fuel l []).map (fun p => (.list p.1, p.2))
      else if c = '"' then
        (parseStringBody rest).map (fun p => (.str (String.mk p.1), p.2))
      else if c = 't' then
        match rest with
        | 'r' :: 'u' :: 'e' :: r => some (.bool true, r)
        | _ => Option.none
      else if c = 'f' then
        match rest with
        | 'a' :: 'l' :: 's' :: 'e' :: r => some (.bool false, r)
        | _ => Option.none
      else if c = 'n' then
        match rest with
        | 'u' :: 'l' :: 'l' :: r => some (.null, r)
        | _ => Option.none
      else
        (parseNumber (c :: rest)).map (fun p => (.num p.1, p.2))

/-- Object members `"key": value (, "key": value)*` up to the closing brace;
duplicate keys keep the last binding via `dictInsert`. -/
def parseMembers : Nat → List Char → List (String × PyValue) →
    Option (List (String × PyValue) × List Char)
  | 0, _, _ => Option.none
  | fuel + 1, cs, acc =>
    match skipWs cs with
    | '"' :: rest =>
      match parseStringBody rest with
      | Option.none => Option.none
      | some (kcs, rest2) =>
        match skipWs rest2 with
        | ':' :: rest3 =>
          match parseValue fuel rest3 with
          | some (v, rest4) =>
            let acc2 := dictInsert acc (String.mk kcs) v
            match skipWs rest4 with
            | ',' :: rest5 => parseMembers fuel rest5 acc2
            | d :: rest5 => if d = rbrace then some (acc2, rest5) else Option.none
            | [] => Option.none
          | Option.none => Option.none
        | _ => Option.none
    | _ => Option.none

/-- Array elements `value (, value)*` up to the closing bracket. -/
def parseElems : Nat → List Char → List PyValue → Option (List PyValue × List Char)
  | 0, _, _ => Option.none
  | fuel + 1, cs, acc =>
    match parseValue fuel cs with
    | some (v, rest) =>
      match skipWs rest with
      | ',' :: rest2 => parseElems fuel rest2 (acc ++ [v])
      | ']' :: rest2 => some (acc ++ [v], rest2)
      | _ => Option.none
    | Option.none => Option.none

end

/-- Model of `json.loads`: parse exactly one JSON value surrounded by
whitespace; anything else raises `JSONDecodeError`, embedded as `none`. -/
def loads (cs : List Char) : Option PyValue :=
  match parseValue (cs.length + 1) cs with
  | some (v, rest) => if (skipWs rest).isEmpty then some v else Option.none
  | Option.none => Option.none

/-! ## Response Interpreter — `TerraformCostAnalyzer._parse_bedrock_response` -/

/-- Python `s.find(c)`: index of the first occurrence, `None` standing for
the sentinel `-1`. -/
def findIdxCh (c : Char) : List Char → Option Nat
  | [] => Option.none
  | x :: xs => if x = c then some 0 else (findIdxCh c xs).map (· + 1)

/-- Python `s.rfind(c)`: index of the last occurrence, `None` standing for
the sentinel `-1`. -/
def rfindIdxCh (c : Char) : List Char → Option Nat
  | [] => Option.none
  | x :: xs =>
    match rfindIdxCh c xs with
    | some i => some (i + 1)
    | Option.none => if x = c then some 0 else Option.none

/-- The brace-scan of `_parse_bedrock_response`:
`start_idx = response.find(lbrace)`, `end_idx = response.rfind(rbrace) + 1`,
`None` when either scan fails (`start_idx == -1 or end_idx == 0`), otherwise
the slice `response[start_idx:end_idx]` (empty when the indices cross, exactly
as Python slicing yields). -/
def extractSpan (response : List Char) : Option (List Char) :=
  match findIdxCh lbrace response, rfindIdxCh rbrace response with
  | some s, some e => some ((response.drop s).take (e + 1 - s))
  | _, _ => Option.none

/-- `TerraformCostAnalyzer._parse_bedrock_response`: brace-scan the reply,
`json.loads` the span, require the fields `monthly_cost` and `cost_breakdown`
in order; every failure (no braces, decode error, missing field, or any
exception from the membership test) is logged and returned as `None`. -/
def parse_bedrock_response (response : List Char) : Option PyValue :=
  match extractSpan response with
  | Option.none => Option.none
  | some js =>
    match loads js with
    | Option.none => Option.none
    | some cost_data =>
      match pyContains "monthly_cost" cost_data with
      | .error _ => Option.none
      | .ok false => Option.none
      | .ok true =>
        match pyContains "cost_breakdown" cost_data with
        | .error _ => Option.none
        | .ok false => Option.none
        | .ok true => some cost_data

/-! ## Plan Ingestor — `_format_resource` and `_extract_resources` -/

/-- A normalized resource change as produced by `_format_resource`.  The plan
interface fixes `type`, `name`, `address` and `provider_name` as strings, so
the embedding carries them as `String` (projected with `asStr`); the
free-form `values` mapping stays an untyped `PyValue`. -/
structure Resource where
  type : String
  name : String
  address : String
  values : PyValue
  provider : String

/-- Project a plan-JSON string field (identity on strings). -/
def asStr : PyValue → String
  | .str s => s
  | _ => ""

/-- `TerraformCostAnalyzer._format_resource`: normalize one change record.
Every field is read with a defaulted `.get`, so the only failure mode is a
non-dict record or a non-dict `change` value (`AttributeError`). -/
def format_resource (change : PyValue) : Except PyErr Resource := do
  let t ← pyGetD change "type" (.str "")
  let n ← pyGetD change "name" (.str "")
  let a ← pyGetD change "address" (.str "")
  let ch ← pyGetD change "change" (.dict [])
  let vals ← pyGetD ch "after" (.dict [])
  let p ← pyGetD change "provider_name" (.str "aws")
  return ⟨asStr t, asStr n, asStr a, vals, asStr p⟩

/-- The classified resource set: the `create` / `update` / `delete` buckets
of `_extract_resources`, in the dict's insertion order. -/
structure ClassifiedResources where
  create : List Resource
  update : List Resource
  delete : List Resource

/-- One iteration of the loop in `_extract_resources`: read the record's
action list and test membership in the fixed order `create`, `update`,
`delete`; the first match formats the record into that bucket, records
matching none are skipped. -/
def extract_step (acc : ClassifiedResources) (change : PyValue) :
    Except PyErr ClassifiedResources := do
  let ch ← pyGetD change "change" (.dict [])
  let action ← pyGetD ch "actions" (.list [])
  let isC ← pyContains "create" action
  if isC then do
    let r ← format_resource change
    return { acc with create := acc.create ++ [r] }
  else
    let isU ← pyContains "update" action
    if isU then do
      let r ← format_resource change
      return { acc with update := acc.update ++ [r] }
    else
      let isD ← pyContains "delete" action
      if isD then do
        let r ← format_resource change
        return { acc with delete := acc.delete ++ [r] }
      else
        return acc

/-- `TerraformCostAnalyzer._extract_resources` (the spec's `classify`).  A
plan without a `resource_changes` collection yields all-empty buckets; a
malformed document raises (the spec's `MalformedPlanError`, which the Python
code realizes as builtin `TypeError` / `AttributeError`). -/
def extract_resources (plan_data : PyValue) : Except PyErr ClassifiedResources := do
  let has ← pyContains "resource_changes" plan_data
  if !has then
    return ⟨[], [], []⟩
  else do
    let rcs ← pySubscript plan_data "resource_changes"
    let items ← pyIter rcs
    items.foldlM extract_step ⟨[], [], []⟩

/-! ## Prompt Builder — `_create_cost_analysis_prompt` -/

mutual

/-- A model of `json.dumps` used to interpolate the resource configuration
into the prompt (the embedding prints compactly where Python uses `indent=2`
and does not escape quotes inside strings; no claim depends on the layout). -/
def dumps : PyValue → String
  | .null => "null"
  | .bool b => if b then "true" else "false"
  | .num q => pyStr (.num q)
  | .str s => "\"" ++ s ++ "\""
  | .list xs => "[" ++ dumpsList xs ++ "]"
  | .dict kvs => String.mk [lbrace] ++ dumpsDict kvs ++ String.mk [rbrace]

/-- Comma-joined list elements. -/
def dumpsList : List PyValue → String
  | [] => ""
  | [x] => dumps x
  | x :: xs => dumps x ++ ", " ++ dumpsList xs

/-- Comma-joined dict entries. -/
def dumpsDict : List (String × PyValue) → String
  | [] => ""
  | [(k, v)] => "\"" ++ k ++ "\": " ++ dumps v
  | (k, v) :: kvs => "\"" ++ k ++ "\": " ++ dumps v ++ ", " ++ dumpsDict kvs

end

/-- `TerraformCostAnalyzer._create_cost_analysis_prompt`: deterministic
template substitution of the resource type, its serialized configuration, the
analyzer's region and the analysis date (Python reads `datetime.now()`; the
embedding takes the date as the explicit parameter `asOfDate`). -/
def create_cost_analysis_prompt (region asOfDate : String)
    (resource_type : String) (config : PyValue) : String :=
  "\nYou are an AWS cost analysis expert. Analyze the following AWS resource and provide detailed cost estimates.\n\nResource Type: "
  ++ resource_type
  ++ "\nConfiguration: " ++ dumps config
  ++ "\nRegion: " ++ region
  ++ "\nAnalysis Date: " ++ asOfDate
  ++ "\n\nPlease provide a comprehensive cost analysis including:\n\n1. MONTHLY COST ESTIMATE:\n   - Base monthly cost for the resource\n   - Include all pricing tiers and usage patterns\n   - Consider reserved instance discounts if applicable\n\n2. HIDDEN COSTS:\n   - Data transfer costs (inbound/outbound)\n   - Storage costs (if applicable)\n   - Network costs (NAT Gateway, Load Balancer data processing)\n   - Backup and snapshot costs\n   - Monitoring and logging costs\n\n3. VARIABLE COSTS:\n   - Usage-based pricing components\n   - Potential cost spikes during high usage\n   - Scaling cost implications\n\n4. COST OPTIMIZATION RECOMMENDATIONS:\n   - Suggest cost-effective alternatives\n   - Reserved instance opportunities\n   - Right-sizing recommendations\n\nRespond in JSON format:\n\x7b\n  \"monthly_cost\": <number>,\n  \"cost_breakdown\": \x7b\n    \"compute\": <number>,\n    \"storage\": <number>,\n    \"network\": <number>,\n    \"other\": <number>\n  \x7d,\n  \"hidden_costs\": [\n    \x7b\n      \"type\": \"<cost_type>\",\n      \"description\": \"<description>\",\n      \"estimated_monthly_cost\": <number>\n    \x7d\n  ],\n  \"data_transfer_costs\": [\n    \x7b\n      \"type\": \"<transfer_type>\",\n      \"description\": \"<description>\",\n      \"estimated_monthly_cost\": <number>\n    \x7d\n  ],\n  \"recommendations\": [\n    \"<recommendation_text>\"\n  ],\n  \"confidence_level\": \"<high|medium|low>\"\n\x7d\n"

/-! ## Estimation Client and Cost Aggregator

`_call_bedrock` sends the prompt to the external inference backend; the
embedding abstracts that network call as an oracle `backend` from the prompt
string to either the reply text or a raised error (the Python method
re-raises both `ClientError` and unexpected exceptions). -/

/-- `TerraformCostAnalyzer._get_resource_cost_estimate`: build the prompt,
invoke the backend, interpret the reply.  Any exception from the call is
caught, logged, and turned into `None`; the interpreter itself never
raises. -/
def get_resource_cost_estimate (backend : String → Except PyErr String)
    (region asOfDate : String) (r : Resource) : Option PyValue :=
  let prompt := create_cost_analysis_prompt region asOfDate r.type r.values
  match backend prompt with
  | .error _ => Option.none
  | .ok text => parse_bedrock_response text.toList

/-- The aggregate result of `analyze_costs_with_bedrock` (its
`cost_analysis` dict). -/
structure CostAnalysis where
  total_estimated_cost : PyNum
  monthly_cost_breakdown : List (String × PyValue)
  hidden_costs : List PyValue
  data_transfer_costs : List PyValue
  recommendations : List PyValue

/-- The initial `cost_analysis` value. -/
def initAnalysis : CostAnalysis := ⟨.ofInt 0, [], [], [], []⟩

/-- The body of the `if resource_cost:` block in `analyze_costs_with_bedrock`,
mutating the aggregate in source order: store the estimate under the
resource's address, add `resource_cost.get('monthly_cost', 0)` to the total,
then extend `hidden_costs` and `data_transfer_costs` when truthy.  The `Bool`
reports whether an exception escaped to the aggregator's `except` handler;
mutations already performed are kept, exactly as the Python `try` leaves
them. -/
def mergeEstimate (acc : CostAnalysis) (addr : String) (d : PyValue) :
    CostAnalysis × Bool :=
  let a1 := { acc with
    monthly_cost_breakdown := dictInsert acc.monthly_cost_breakdown addr d }
  match d with
  | .dict kvs =>
    match pyToNum ((lookupD kvs "monthly_cost").getD (.num (.ofInt 0))) with
    | Option.none => (a1, true)
    | some m =>
      let a2 := { a1 with total_estimated_cost := a1.total_estimated_cost.add m }
      let dtPart := fun (a : CostAnalysis) =>
        let dv := (lookupD kvs "data_transfer_costs").getD .null
        if pyTruthy dv then
          match pyIter dv with
          | .error _ => (a, true)
          | .ok ds => ({ a with data_transfer_costs := a.data_transfer_costs ++ ds }, false)
        else (a, false)
      let hv := (lookupD kvs "hidden_costs").getD .null
      if pyTruthy hv then
        match pyIter hv with
        | .error _ => (a2, true)
        | .ok hs => dtPart { a2 with hidden_costs := a2.hidden_costs ++ hs }
      else dtPart a2
  | _ => (a1, true)

/-- The outcome of one analysis run: the aggregate together with the trace of
resources handed to `_get_resource_cost_estimate` (each of which has its
prompt built and the backend invoked) and the addresses for which a failure
was logged (in `_get_resource_cost_estimate`, in `_parse_bedrock_response`,
or by the aggregator's own `except`). -/
structure AnalyzeResult where
  analysis : CostAnalysis
  calls : List Resource
  misses : List String

/-- One iteration of the inner loop of `analyze_costs_with_bedrock`. -/
def analyzeStep (backend : String → Except PyErr String)
    (region asOfDate : String) (st : AnalyzeResult) (r : Resource) : AnalyzeResult :=
  let st := { st with calls := st.calls ++ [r] }
  match get_resource_cost_estimate backend region asOfDate r with
  | Option.none => { st with misses := st.misses ++ [r.address] }
  | some d =>
    if pyTruthy d then
      let (a, m) := mergeEstimate st.analysis r.address d
      { analysis := a, calls := st.calls,
        misses := if m then st.misses ++ [r.address] else st.misses }
    else st

/-- `TerraformCostAnalyzer.analyze_costs_with_bedrock`: iterate the buckets in
the dict's insertion order (`create`, `update`, `delete`), `continue` past the
`delete` bucket, and process each remaining resource in plan order. -/
def analyze_costs_with_bedrock (backend : String → Except PyErr String)
    (region asOfDate : String) (rs : ClassifiedResources) : AnalyzeResult :=
  (rs.create ++ rs.update).foldl (analyzeStep backend region asOfDate)
    ⟨initAnalysis, [], []⟩

/-! ## Report Renderer — `generate_cost_report` -/

/-- The Python format spec `:.2f`: round the value times 100 to the nearest
integer (ties to even, as correct float formatting rounds) and print it as
`int.dd` with exactly two decimal digits, a leading `-` for negatives.
(Python formats the IEEE double nearest the value; the embedding rounds the
exact rational, which agrees on every tie-free value.) -/
def fmt2f (x : PyNum) : String :=
  let sign := if x.n < 0 then "-" else ""
  let absn : ℤ := if x.n < 0 then -x.n else x.n
  let scaled : ℤ := absn * 100
  let d : ℤ := (x.den : ℤ)
  let f : ℤ := scaled / d
  let r : ℤ := scaled % d
  let k : ℤ := if 2 * r < d then f else if d < 2 * r then f + 1
    else if 2 ∣ f then f else f + 1
  let m : ℕ := k.toNat
  sign ++ Nat.repr (m / 100) ++ "." ++
    String.mk [Nat.digitChar (m / 10 % 10), Nat.digitChar (m % 10)]

/-- Applying the format spec `:.2f` to an arbitrary value: numbers and
booleans format as numbers, anything else raises (`ValueError` for the
embedding; Python distinguishes `TypeError`/`ValueError` by type, a
distinction no claim depends on). -/
def fmtMoneyV : PyValue → Except PyErr String
  | .num q => .ok (fmt2f q)
  | .bool b => .ok (fmt2f (.ofInt (if b then 1 else 0)))
  | _ => .error .valueError

/-- Python `amount > 0`: numeric comparison, `TypeError` otherwise. -/
def pyGtZero : PyValue → Except PyErr Bool
  | .num q => .ok (decide (0 < q.n))
  | .bool b => .ok b
  | _ => .error .typeError

/-- Python `d.items()`: the dict's entries, `AttributeError` otherwise. -/
def pyItems : PyValue → Except PyErr (List (String × PyValue))
  | .dict kvs => .ok kvs
  | _ => .error .attributeError

/-- Case mapping of one character under `str.title()`. -/
def titleChar (prevAlpha : Bool) (c : Char) : Char :=
  if c.isAlpha then (if prevAlpha then c.toLower else c.toUpper) else c

/-- Python `str.title()` (ASCII fragment): uppercase each letter that follows
a non-letter, lowercase the rest. -/
def pyTitle (s : String) : String :=
  String.mk (s.toList.foldl
    (fun (acc : List Char × Bool) c => (acc.1 ++ [titleChar acc.2 c], c.isAlpha))
    ([], false)).1

/-- The `"=" * 80` separator. -/
def eq80 : String := String.mk (List.replicate 80 '=')

/-- The `"-" * 40` separator. -/
def dash40 : String := String.mk (List.replicate 40 '-')

/-- One iteration of the hidden- / data-transfer-cost loop: read the
defaulted `estimated_monthly_cost`, add it to the running subtotal
(`TypeError` on non-numbers), then render the bullet line from `cost['type']`
and the description line from `cost['description']` (`KeyError` when either
key is missing). -/
def renderCostEntry (subtotal : PyNum) (cost : PyValue) :
    Except PyErr (PyNum × List String) := do
  let amount ← pyGetD cost "estimated_monthly_cost" (.num (.ofInt 0))
  let q ← match pyToNum amount with
    | some q => Except.ok q
    | Option.none => Except.error PyErr.typeError
  let t ← pySubscript cost "type"
  let dsc ← pySubscript cost "description"
  Except.ok (subtotal.add q,
    ["• " ++ pyStr t ++ ": $" ++ fmt2f q ++ "/month", "  " ++ pyStr dsc])

/-- The whole hidden- / data-transfer-cost loop, threading the subtotal. -/
def renderCostLoop (subtotal : PyNum) :
    List PyValue → Except PyErr (PyNum × List String)
  | [] => .ok (subtotal, [])
  | c :: cs => do
    let r1 ← renderCostEntry subtotal c
    let r2 ← renderCostLoop r1.1 cs
    Except.ok (r2.1, r1.2 ++ r2.2)

/-- A `HIDDEN COSTS` / `DATA TRANSFER COSTS` section: emitted only when the
cost list is truthy (non-empty), closing with the subtotal line. -/
def renderCostSection (header totalLabel : String) (costs : List PyValue) :
    Except PyErr (List String) :=
  if costs.isEmpty then .ok []
  else do
    let r ← renderCostLoop (.ofInt 0) costs
    Except.ok ([header, dash40] ++ r.2 ++ [totalLabel ++ fmt2f r.1 ++ "/month", ""])

/-- The per-category lines of one resource's cost breakdown: categories with
non-positive amounts are suppressed, `amount > 0` raising `TypeError` on
non-numbers and the format spec raising on unformattable amounts. -/
def renderBreakdownCats : List (String × PyValue) → Except PyErr (List String)
  | [] => .ok []
  | kv :: rest => do
    let pos ← pyGtZero kv.2
    let here ← if pos then do
        let amt ← fmtMoneyV kv.2
        Except.ok ["  - " ++ pyTitle kv.1 ++ ": $" ++ amt]
      else Except.ok []
    let more ← renderBreakdownCats rest
    Except.ok (here ++ more)

/-- One entry of the `RESOURCE COST BREAKDOWN` loop: the defaulted
`monthly_cost` headline and, when the estimate carries a `cost_breakdown`
mapping, its per-category lines. -/
def renderResourceEntry (addr : String) (cost_info : PyValue) :
    Except PyErr (List String) := do
  let monthly_cost ← pyGetD cost_info "monthly_cost" (.num (.ofInt 0))
  let mcs ← fmtMoneyV monthly_cost
  let hasB ← pyContains "cost_breakdown" cost_info
  let sub ← if hasB then do
      let breakdown ← pySubscript cost_info "cost_breakdown"
      let entries ← pyItems breakdown
      renderBreakdownCats entries
    else Except.ok []
  Except.ok ((addr ++ ": $" ++ mcs ++ "/month") :: sub)

/-- The `RESOURCE COST BREAKDOWN` loop over the aggregate's entries. -/
def renderBreakdownLoop : List (String × PyValue) → Except PyErr (List String)
  | [] => .ok []
  | kv :: rest => do
    let here ← renderResourceEntry kv.1 kv.2
    let more ← renderBreakdownLoop rest
    Except.ok (here ++ more)

/-- The `RESOURCE COST BREAKDOWN` section, emitted only when the aggregate's
breakdown is truthy (non-empty). -/
def renderBreakdownSection (bd : List (String × PyValue)) :
    Except PyErr (List String) :=
  if bd.isEmpty then .ok []
  else do
    let ls ← renderBreakdownLoop bd
    Except.ok (["RESOURCE COST BREAKDOWN", dash40] ++ ls ++ [""])

/-- The numbered `COST OPTIMIZATION RECOMMENDATIONS` section (pure:
`enumerate(..., 1)` and f-string rendering never raise). -/
def renderRecs (recs : List PyValue) : List String :=
  if recs.isEmpty then []
  else
    ["COST OPTIMIZATION RECOMMENDATIONS", dash40] ++
      ((List.range recs.length).zip recs).map
        (fun p => Nat.repr (p.1 + 1) ++ ". " ++ pyStr p.2) ++ [""]

/-- `TerraformCostAnalyzer.generate_cost_report`, as the list of report lines
(the Python returns their join with newlines; the optional file write is an
external effect outside the pure model, logged and ignored on failure).
`now` stands for `datetime.now()` and `region` for the analyzer's region.
Sections are rendered in the source's order — header, summary, resource
breakdown, hidden costs, data-transfer costs, recommendations — so the first
raising section determines the exception. -/
def generate_cost_report_lines (region now : String) (A : CostAnalysis) :
    Except PyErr (List String) := do
  let header := [eq80, "AWS TERRAFORM COST ANALYSIS REPORT", eq80,
    "Generated on: " ++ now, "Region: " ++ region, "",
    "COST SUMMARY", dash40,
    "Total Estimated Monthly Cost: $" ++ fmt2f A.total_estimated_cost, ""]
  let bd ← renderBreakdownSection A.monthly_cost_breakdown
  let hid ← renderCostSection "HIDDEN COSTS" "Total Hidden Costs: $" A.hidden_costs
  let dt ← renderCostSection "DATA TRANSFER COSTS" "Total Data Transfer Costs: $"
    A.data_transfer_costs
  Except.ok (header ++ bd ++ hid ++ dt ++ renderRecs A.recommendations)

/-- The report text handed back to the caller: the joined lines. -/
def generate_cost_report (region now : String) (A : CostAnalysis) :
    Except PyErr String :=
  (generate_cost_report_lines region now A).map (String.intercalate "\n")

/-! ## Spec-side derived notions and basic lemmas -/

set_option maxRecDepth 40000

/-- The keys of a dict body. -/
def dictKeys (kvs : List (String × PyValue)) : List String := kvs.map Prod.fst

/-- The rational value of an estimate's `monthly_cost` field, exactly as the
aggregator adds it: the defaulted lookup `resource_cost.get('monthly_cost', 0)`
coerced to a number, `0` when the coercion (and hence the Python `+=`) fails
or the estimate is not a dict. -/
def monthlyCostOf : PyValue → ℚ
  | .dict kvs =>
    match pyToNum ((lookupD kvs "monthly_cost").getD (.num (.ofInt 0))) with
    | some m => m.toRat
    | Option.none => 0
  | _ => 0

/-- The sum of the `monthly_cost` fields over the entries of a breakdown. -/
def sumMonthly (bd : List (String × PyValue)) : ℚ :=
  (bd.map (fun kv => monthlyCostOf kv.2)).sum

/-- The effective estimate a resource contributes: the interpreted estimate
when it exists and is truthy (the aggregator's `if resource_cost:`), nothing
otherwise. -/
def estEff (backend : String → Except PyErr String) (region asOfDate : String)
    (r : Resource) : Option PyValue :=
  match get_resource_cost_estimate backend region asOfDate r with
  | some d => if pyTruthy d then some d else Option.none
  | Option.none => Option.none

theorem PyNum.den_pos (q : PyNum) : 0 < q.den := Nat.succ_pos _

theorem PyNum.den_cast_ne_zero (q : PyNum) : ((q.den : ℚ)) ≠ 0 := by
  exact_mod_cast q.den_pos.ne'

theorem PyNum.toRat_ofInt (i : ℤ) : (PyNum.ofInt i).toRat = (i : ℚ) := by
  simp [PyNum.toRat, PyNum.ofInt, PyNum.den]

theorem PyNum.toRat_add (a b : PyNum) : (a.add b).toRat = a.toRat + b.toRat := by
  have ha := a.den_cast_ne_zero
  have hb := b.den_cast_ne_zero
  unfold PyNum.toRat PyNum.add
  have hden : ((⟨a.n * (b.den : ℤ) + b.n * (a.den : ℤ),
      a.d1 * b.d1 + a.d1 + b.d1⟩ : PyNum).den : ℚ) = (a.den : ℚ) * (b.den : ℚ) := by
    unfold PyNum.den
    push_cast [PyNum.den]
    ring
  rw [hden, div_add_div _ _ ha hb]
  congr 1
  push_cast
  ring

theorem lookupD_nil (k : String) : lookupD [] k = Option.none := rfl

theorem lookupD_cons (a : String) (b : PyValue) (tl : List (String × PyValue))
    (k : String) :
    lookupD ((a, b) :: tl) k = if a = k then some b else lookupD tl k := by
  by_cases h : a = k <;> simp [lookupD, List.find?, h]

theorem lookupD_dictInsert_self (l : List (String × PyValue)) (k : String) (v : PyValue) :
    lookupD (dictInsert l k v) k = some v := by
  induction l with
  | nil => simp [dictInsert, lookupD_cons]
  | cons hd tl ih =>
    obtain ⟨a, b⟩ := hd
    by_cases h : a = k
    · simp [dictInsert, h, lookupD_cons]
    · simp [dictInsert, h, lookupD_cons, ih]

theorem lookupD_dictInsert_ne (l : List (String × PyValue)) (k k' : String) (v : PyValue)
    (h : k' ≠ k) : lookupD (dictInsert l k v) k' = lookupD l k' := by
  induction l with
  | nil =>
    have : k ≠ k' := fun e => h e.symm
    simp [dictInsert, lookupD_cons, lookupD_nil, this]
  | cons hd tl ih =>
    obtain ⟨a, b⟩ := hd
    by_cases ha : a = k
    · have hak' : a ≠ k' := by
        rw [ha]; exact fun e => h e.symm
      simp [dictInsert, ha, lookupD_cons, hak', (ha ▸ hak' : k ≠ k')]
    · by_cases hak' : a = k'
      · simp [dictInsert, ha, lookupD_cons, hak', h]
      · simp [dictInsert, ha, lookupD_cons, hak', ih]

theorem dictInsert_of_not_mem (l : List (String × PyValue)) (k : String) (v : PyValue)
    (h : k ∉ dictKeys l) : dictInsert l k v = l ++ [(k, v)] := by
  induction l with
  | nil => simp [dictInsert]
  | cons hd tl ih =>
    obtain ⟨a, b⟩ := hd
    simp only [dictKeys, List.map_cons, List.mem_cons, not_or] at h
    have ha : a ≠ k := fun e => h.1 e.symm
    simp [dictInsert, ha, ih (by simpa [dictKeys] using h.2)]

theorem sumMonthly_append (l₁ l₂ : List (String × PyValue)) :
    sumMonthly (l₁ ++ l₂) = sumMonthly l₁ + sumMonthly l₂ := by
  simp [sumMonthly]

/-! ## Aggregator step and fold lemmas -/

theorem mergeEstimate_breakdown (acc : CostAnalysis) (a : String) (d : PyValue) :
    (mergeEstimate acc a d).1.monthly_cost_breakdown
      = dictInsert acc.monthly_cost_breakdown a d := by
  cases d <;> (simp only [mergeEstimate]; repeat' split) <;> rfl

theorem mergeEstimate_total (acc : CostAnalysis) (a : String) (d : PyValue) :
    (mergeEstimate acc a d).1.total_estimated_cost.toRat
      = acc.total_estimated_cost.toRat + monthlyCostOf d := by
  cases d <;> simp only [mergeEstimate, monthlyCostOf] <;> (repeat' split) <;>
    simp_all [PyNum.toRat_add]

theorem analyzeStep_calls (b : String → Except PyErr String) (reg dt : String)
    (st : AnalyzeResult) (r : Resource) :
    (analyzeStep b reg dt st r).calls = st.calls ++ [r] := by
  simp only [analyzeStep]
  cases get_resource_cost_estimate b reg dt r with
  | none => rfl
  | some d =>
    dsimp only
    split <;> rfl

theorem analyzeStep_breakdown (b : String → Except PyErr String) (reg dt : String)
    (st : AnalyzeResult) (r : Resource) :
    (analyzeStep b reg dt st r).analysis.monthly_cost_breakdown
      = match estEff b reg dt r with
        | some d => dictInsert st.analysis.monthly_cost_breakdown r.address d
        | Option.none => st.analysis.monthly_cost_breakdown := by
  simp only [analyzeStep, estEff]
  cases get_resource_cost_estimate b reg dt r
  · rfl
  · dsimp only
    split <;> simp [mergeEstimate_breakdown]

theorem analyzeStep_total (b : String → Except PyErr String) (reg dt : String)
    (st : AnalyzeResult) (r : Resource) :
    (analyzeStep b reg dt st r).analysis.total_estimated_cost.toRat
      = st.analysis.total_estimated_cost.toRat
        + (match estEff b reg dt r with
           | some d => monthlyCostOf d
           | Option.none => 0) := by
  simp only [analyzeStep, estEff]
  cases get_resource_cost_estimate b reg dt r
  · simp
  · dsimp only
    split <;> simp [mergeEstimate_total]

theorem foldl_calls (b : String → Except PyErr String) (reg dt : String)
    (l : List Resource) (st : AnalyzeResult) :
    (l.foldl (analyzeStep b reg dt) st).calls = st.calls ++ l := by
  induction l generalizing st with
  | nil => simp
  | cons r tl ih =>
    rw [List.foldl_cons, ih, analyzeStep_calls]
    simp

theorem foldl_lookup_not_mem (b : String → Except PyErr String) (reg dt : String)
    (l : List Resource) (st : AnalyzeResult) (a : String)
    (h : a ∉ l.map Resource.address) :
    lookupD (l.foldl (analyzeStep b reg dt) st).analysis.monthly_cost_breakdown a
      = lookupD st.analysis.monthly_cost_breakdown a := by
  induction l generalizing st with
  | nil => rfl
  | cons r tl ih =>
    simp only [List.map_cons, List.mem_cons, not_or] at h
    rw [List.foldl_cons, ih _ h.2, analyzeStep_breakdown]
    cases estEff b reg dt r
    · rfl
    · exact lookupD_dictInsert_ne _ _ _ _ h.1

theorem foldl_lookup_found (b : String → Except PyErr String) (reg dt : String)
    (l : List Resource) (st : AnalyzeResult) (a : String)
    (hnd : (l.map Resource.address).Nodup)
    (hst : lookupD st.analysis.monthly_cost_breakdown a = Option.none) :
    lookupD (l.foldl (analyzeStep b reg dt) st).analysis.monthly_cost_breakdown a
      = (l.find? (fun r => r.address = a)).bind (estEff b reg dt) := by
  induction l generalizing st with
  | nil => simpa using hst
  | cons r tl ih =>
    simp only [List.map_cons, List.nodup_cons] at hnd
    by_cases hra : r.address = a
    · have htl : a ∉ tl.map Resource.address := hra ▸ hnd.1
      rw [List.foldl_cons, foldl_lookup_not_mem _ _ _ _ _ _ htl,
        analyzeStep_breakdown, List.find?_cons_of_pos _ (by simp [hra]),
        Option.some_bind]
      cases h : estEff b reg dt r with
      | none => simpa [h] using hst
      | some d => simp [h, ← hra, lookupD_dictInsert_self]
    · rw [List.foldl_cons, List.find?_cons_of_neg _ (by simp [hra])]
      apply ih _ hnd.2
      rw [analyzeStep_breakdown]
      cases h : estEff b reg dt r with
      | none => exact hst
      | some d =>
        dsimp only
        rw [lookupD_dictInsert_ne _ _ _ _ (fun e => hra e.symm)]
        exact hst

theorem analyzeStep_misses_mono (b : String → Except PyErr String) (reg dt : String)
    (st : AnalyzeResult) (r : Resource) (x : String) (hx : x ∈ st.misses) :
    x ∈ (analyzeStep b reg dt st r).misses := by
  simp only [analyzeStep]
  cases get_resource_cost_estimate b reg dt r
  · simp [hx]
  · dsimp only
    split
    · split <;> simp [hx]
    · exact hx

theorem foldl_misses_mono (b : String → Except PyErr String) (reg dt : String)
    (l : List Resource) (st : AnalyzeResult) (x : String) (hx : x ∈ st.misses) :
    x ∈ (l.foldl (analyzeStep b reg dt) st).misses := by
  induction l generalizing st with
  | nil => exact hx
  | cons r tl ih => exact ih _ (analyzeStep_misses_mono _ _ _ _ _ _ hx)

theorem foldl_miss_recorded (b : String → Except PyErr String) (reg dt : String)
    (l : List Resource) (st : AnalyzeResult) (r0 : Resource) (h0 : r0 ∈ l)
    (hfail : get_resource_cost_estimate b reg dt r0 = Option.none) :
    r0.address ∈ (l.foldl (analyzeStep b reg dt) st).misses := by
  induction l generalizing st with
  | nil => cases h0
  | cons r tl ih =>
    rcases List.mem_cons.mp h0 with h0 | h0
    · subst h0
      rw [List.foldl_cons]
      apply foldl_misses_mono
      simp [analyzeStep, hfail]
    · rw [List.foldl_cons]
      exact ih _ h0

theorem foldl_total_eq_sum (b : String → Except PyErr String) (reg dt : String)
    (l : List Resource) (st : AnalyzeResult)
    (hnd : (l.map Resource.address).Nodup)
    (hfresh : ∀ r ∈ l, r.address ∉ dictKeys st.analysis.monthly_cost_breakdown)
    (hinv : st.analysis.total_estimated_cost.toRat
      = sumMonthly st.analysis.monthly_cost_breakdown) :
    (l.foldl (analyzeStep b reg dt) st).analysis.total_estimated_cost.toRat
      = sumMonthly (l.foldl (analyzeStep b reg dt) st).analysis.monthly_cost_breakdown := by
  induction l generalizing st with
  | nil => exact hinv
  | cons r tl ih =>
    simp only [List.map_cons, List.nodup_cons] at hnd
    rw [List.foldl_cons]
    refine ih _ hnd.2 ?_ ?_
    · intro r' hr'
      rw [analyzeStep_breakdown]
      cases h : estEff b reg dt r with
      | none => exact hfresh r' (List.mem_cons_of_mem _ hr')
      | some d =>
        dsimp only
        rw [dictInsert_of_not_mem _ _ _ (hfresh r (List.mem_cons_self _ _))]
        simp only [dictKeys, List.map_append, List.map_cons, List.map_nil,
          List.mem_append, List.mem_singleton, not_or]
        refine ⟨hfresh r' (List.mem_cons_of_mem _ hr'), ?_⟩
        intro he
        exact hnd.1 (he ▸ List.mem_map_of_mem Resource.address hr')
    · rw [analyzeStep_total, analyzeStep_breakdown]
      cases h : estEff b reg dt r with
      | none => simpa using hinv
      | some d =>
        dsimp only
        rw [dictInsert_of_not_mem _ _ _ (hfresh r (List.mem_cons_self _ _)),
          sumMonthly_append, hinv]
        simp [sumMonthly]

/-! ## Facts about interpreter output -/

theorem parse_some_contains (cs : List Char) (d : PyValue)
    (h : parse_bedrock_response cs = some d) :
    pyContains "monthly_cost" d = .ok true ∧ pyContains "cost_breakdown" d = .ok true := by
  unfold parse_bedrock_response at h
  repeat' split at h
  all_goals simp_all

theorem pyTruthy_of_contains (k : String) (d : PyValue) (hk : k.toList ≠ [])
    (h : pyContains k d = .ok true) : pyTruthy d = true := by
  cases d with
  | dict kvs =>
    cases kvs with
    | nil => simp [pyContains] at h
    | cons x xs => simp [pyTruthy]
  | list xs =>
    cases xs with
    | nil => simp [pyContains] at h
    | cons x xs => simp [pyTruthy]
  | str s =>
    simp only [pyContains, Except.ok.injEq] at h
    simp only [pyTruthy, ne_eq, decide_eq_true_eq]
    intro hs
    rw [hs] at h
    simp only [listInfix] at h
    rw [List.isEmpty_iff] at h
    exact hk (by simpa [String.toList] using h)
  | null => simp [pyContains] at h
  | bool b => simp [pyContains] at h
  | num q => simp [pyContains] at h

theorem parse_some_truthy (cs : List Char) (d : PyValue)
    (h : parse_bedrock_response cs = some d) : pyTruthy d = true :=
  pyTruthy_of_contains "monthly_cost" d (by decide) (parse_some_contains cs d h).1

theorem estEff_eq_of_est_some (b : String → Except PyErr String) (reg dt : String)
    (r : Resource) (d : PyValue)
    (h : get_resource_cost_estimate b reg dt r = some d) :
    estEff b reg dt r = some d := by
  have ht : pyTruthy d = true := by
    have h' := h
    unfold get_resource_cost_estimate at h'
    dsimp only at h'
    cases hb : b (create_cost_analysis_prompt reg dt r.type r.values) with
    | error e => rw [hb] at h'; cases h'
    | ok text =>
      rw [hb] at h'
      exact parse_some_truthy _ _ h'
  unfold estEff
  rw [h]
  simp [ht]

theorem find?_addr_first (l : List Resource) (r0 : Resource)
    (hnd : (l.map Resource.address).Nodup) (h0 : r0 ∈ l) :
    l.find? (fun r => r.address = r0.address) = some r0 := by
  induction l with
  | nil => cases h0
  | cons r tl ih =>
    simp only [List.map_cons, List.nodup_cons] at hnd
    rcases List.mem_cons.mp h0 with h | h
    · subst h
      exact List.find?_cons_of_pos _ (by simp)
    · have hne : r.address ≠ r0.address := by
        intro he
        exact hnd.1 (he ▸ List.mem_map_of_mem Resource.address h)
      rw [List.find?_cons_of_neg _ (by simp [hne]), ih hnd.2 h]

/-! ## The claims -/

/-- C1: for every classified resource set whose non-delete resources have
pairwise distinct addresses, the aggregate's `total_estimated_cost` equals
the sum of the `monthly_cost` fields over exactly the entries present in
`monthly_cost_breakdown` — skipped resources contribute nothing and no
resource is counted twice. -/
theorem c1_total_matches_breakdown (b : String → Except PyErr String)
    (region asOfDate : String) (rs : ClassifiedResources)
    (hnd : ((rs.create ++ rs.update).map Resource.address).Nodup) :
    (analyze_costs_with_bedrock b region asOfDate rs).analysis.total_estimated_cost.toRat
      = sumMonthly
          (analyze_costs_with_bedrock b region asOfDate rs).analysis.monthly_cost_breakdown := by
  unfold analyze_costs_with_bedrock
  refine foldl_total_eq_sum _ _ _ _ _ hnd ?_ ?_
  · intro r hr
    simp [initAnalysis, dictKeys]
  · simp [initAnalysis, sumMonthly, PyNum.toRat_ofInt]

/-- A constant estimation backend replying with a fixed well-formed estimate. -/
def wBackend : String → Except PyErr String := fun _ =>
  .ok "\x7b\"monthly_cost\": 10, \"cost_breakdown\": \x7b\"compute\": 10\x7d\x7d"

/-- A one-create-resource classified set. -/
def wSet : ClassifiedResources :=
  ⟨[⟨"aws_instance", "web", "aws_instance.web", .dict [], "aws"⟩], [], []⟩

/-- Witness for C1 at a concrete input. -/
theorem c1_total_matches_breakdown_witness :
    (((wSet.create ++ wSet.update).map Resource.address).Nodup)
    ∧ (analyze_costs_with_bedrock wBackend "us-east-1" "2026-01-01"
          wSet).analysis.total_estimated_cost.toRat
        = sumMonthly (analyze_costs_with_bedrock wBackend "us-east-1" "2026-01-01"
            wSet).analysis.monthly_cost_breakdown :=
  ⟨by decide, c1_total_matches_breakdown wBackend "us-east-1" "2026-01-01" wSet (by decide)⟩

/-- C2: for every classified resource set (with the data model's unique
addresses), a resource whose per-resource estimation raises or yields an
invalid estimate is omitted from `monthly_cost_breakdown`, its miss is
logged, and the run continues: every other resource with a valid estimate is
still present in the final aggregate. -/
theorem c2_partial_failure_isolated (b : String → Except PyErr String)
    (region asOfDate : String) (rs : ClassifiedResources)
    (hnd : ((rs.create ++ rs.update).map Resource.address).Nodup)
    (r0 : Resource) (h0 : r0 ∈ rs.create ++ rs.update)
    (hfail : get_resource_cost_estimate b region asOfDate r0 = Option.none) :
    lookupD (analyze_costs_with_bedrock b region asOfDate rs).analysis.monthly_cost_breakdown
        r0.address = Option.none
    ∧ r0.address ∈ (analyze_costs_with_bedrock b region asOfDate rs).misses
    ∧ ∀ r d, r ∈ rs.create ++ rs.update → r.address ≠ r0.address →
        get_resource_cost_estimate b region asOfDate r = some d →
        lookupD
          (analyze_costs_with_bedrock b region asOfDate rs).analysis.monthly_cost_breakdown
          r.address = some d := by
  refine ⟨?_, ?_, ?_⟩
  · unfold analyze_costs_with_bedrock
    rw [foldl_lookup_found b region asOfDate (rs.create ++ rs.update)
        ⟨initAnalysis, [], []⟩ r0.address hnd (by rfl),
      find?_addr_first _ _ hnd h0, Option.some_bind]
    simp [estEff, hfail]
  · exact foldl_miss_recorded _ _ _ _ _ _ h0 hfail
  · intro r d hr hne hsome
    unfold analyze_costs_with_bedrock
    rw [foldl_lookup_found b region asOfDate (rs.create ++ rs.update)
        ⟨initAnalysis, [], []⟩ r.address hnd (by rfl),
      find?_addr_first _ _ hnd hr,
      Option.some_bind, estEff_eq_of_est_some _ _ _ _ _ hsome]

/-- A backend that raises for the storage-bucket resource type and answers a
fixed well-formed estimate otherwise. -/
def wBackend2 : String → Except PyErr String := fun p =>
  if listInfix "aws_s3_bucket".toList p.toList then .error .typeError
  else .ok "\x7b\"monthly_cost\": 10, \"cost_breakdown\": \x7b\"compute\": 10\x7d\x7d"

/-- Three create-resources, the middle of which the backend fails on. -/
def wSet3 : ClassifiedResources :=
  ⟨[⟨"aws_instance", "web", "aws_instance.web", .dict [], "aws"⟩,
    ⟨"aws_s3_bucket", "logs", "aws_s3_bucket.logs", .dict [], "aws"⟩,
    ⟨"aws_nat_gateway", "ngw", "aws_nat_gateway.ngw", .dict [], "aws"⟩], [], []⟩

/-- Witness for C2: one failing backend call among three resources. -/
theorem c2_partial_failure_isolated_witness :
    (((wSet3.create ++ wSet3.update).map Resource.address).Nodup
      ∧ get_resource_cost_estimate wBackend2 "us-east-1" "2026-01-01"
          (wSet3.create.get ⟨1, by decide⟩) = Option.none)
    ∧ lookupD (analyze_costs_with_bedrock wBackend2 "us-east-1" "2026-01-01"
          wSet3).analysis.monthly_cost_breakdown "aws_s3_bucket.logs" = Option.none
    ∧ "aws_s3_bucket.logs" ∈ (analyze_costs_with_bedrock wBackend2 "us-east-1" "2026-01-01"
          wSet3).misses := by
  have h := c2_partial_failure_isolated wBackend2 "us-east-1" "2026-01-01" wSet3
    (by decide) (wSet3.create.get ⟨1, by decide⟩)
    (List.mem_append_left _ (List.get_mem _ _ _))
    (by rfl)
  exact ⟨⟨by decide, by rfl⟩, h.1, h.2.1⟩

/-- C7: the aggregator hands exactly the `create` and `update` buckets to
`_get_resource_cost_estimate` (prompt construction plus backend call), so it
never invokes the Prompt Builder or the backend on a delete-bucket resource,
and no delete-bucket resource appears in `monthly_cost_breakdown`. -/
theorem c7_delete_bucket_excluded (b : String → Except PyErr String)
    (region asOfDate : String) (rs : ClassifiedResources) :
    (analyze_costs_with_bedrock b region asOfDate rs).calls = rs.create ++ rs.update
    ∧ (∀ r ∈ rs.delete, r ∉ rs.create → r ∉ rs.update →
        r ∉ (analyze_costs_with_bedrock b region asOfDate rs).calls)
    ∧ (∀ r ∈ rs.delete,
        (∀ r' ∈ rs.create ++ rs.update, r'.address ≠ r.address) →
        lookupD
          (analyze_costs_with_bedrock b region asOfDate rs).analysis.monthly_cost_breakdown
          r.address = Option.none) := by
  have hc : (analyze_costs_with_bedrock b region asOfDate rs).calls
      = rs.create ++ rs.update := by
    unfold analyze_costs_with_bedrock
    simpa using foldl_calls b region asOfDate (rs.create ++ rs.update) ⟨initAnalysis, [], []⟩
  refine ⟨hc, ?_, ?_⟩
  · intro r _ hnc hnu hmem
    rw [hc] at hmem
    rcases List.mem_append.mp hmem with h | h
    · exact hnc h
    · exact hnu h
  · intro r _ hne
    unfold analyze_costs_with_bedrock
    rw [foldl_lookup_not_mem]
    · rfl
    · intro hmem
      rcases List.mem_map.mp hmem with ⟨r', hr', he⟩
      exact hne r' hr' he

/-- One create-resource plus one delete-resource. -/
def wSetDel : ClassifiedResources :=
  ⟨[⟨"aws_instance", "web", "aws_instance.web", .dict [], "aws"⟩], [],
    [⟨"aws_ebs_volume", "old", "aws_ebs_volume.old", .dict [], "aws"⟩]⟩

/-- Witness for C7: the delete-bucket resource is never called and absent
from the breakdown. -/
theorem c7_delete_bucket_excluded_witness :
    (⟨"aws_ebs_volume", "old", "aws_ebs_volume.old", .dict [], "aws"⟩ : Resource)
      ∉ (analyze_costs_with_bedrock wBackend "us-east-1" "2026-01-01" wSetDel).calls
    ∧ lookupD (analyze_costs_with_bedrock wBackend "us-east-1" "2026-01-01"
        wSetDel).analysis.monthly_cost_breakdown "aws_ebs_volume.old" = Option.none := by
  have h := c7_delete_bucket_excluded wBackend "us-east-1" "2026-01-01" wSetDel
  refine ⟨?_, ?_⟩
  · exact h.2.1 _ (List.mem_singleton.mpr rfl)
      (by
        intro hmem
        have := congrArg Resource.address (List.mem_singleton.mp hmem)
        exact absurd this (by decide))
      (by intro hmem; cases hmem)
  · exact h.2.2 _ (List.mem_singleton.mpr rfl)
      (by
        intro r' hr'
        have : r' = ⟨"aws_instance", "web", "aws_instance.web", .dict [], "aws"⟩ := by
          simpa [wSetDel] using hr'
        rw [this]
        decide)

/-! ## Brace-scan lemmas for the Response Interpreter -/

theorem findIdxCh_append_of_not_mem (c : Char) (pre l : List Char) (h : c ∉ pre) :
    findIdxCh c (pre ++ l) = (findIdxCh c l).map (· + pre.length) := by
  induction pre with
  | nil =>
    rw [List.nil_append]
    cases findIdxCh c l <;> simp
  | cons x xs ih =>
    simp only [List.mem_cons, not_or] at h
    have hx : ¬ x = c := fun e => h.1 e.symm
    simp only [List.cons_append, findIdxCh, hx, if_false, List.append_eq]
    rw [ih h.2]
    cases findIdxCh c l <;> simp [Nat.add_assoc]

theorem rfindIdxCh_eq_none (c : Char) (l : List Char) (h : c ∉ l) :
    rfindIdxCh c l = Option.none := by
  induction l with
  | nil => rfl
  | cons x xs ih =>
    simp only [List.mem_cons, not_or] at h
    have hx : ¬ x = c := fun e => h.1 e.symm
    simp [rfindIdxCh, ih h.2, hx]

theorem rfindIdxCh_append_of_not_mem (c : Char) (l suf : List Char) (h : c ∉ suf) :
    rfindIdxCh c (l ++ suf) = rfindIdxCh c l := by
  induction l with
  | nil => simpa using rfindIdxCh_eq_none c suf h
  | cons x xs ih => simp [rfindIdxCh, ih]

theorem rfindIdxCh_concat_self (c : Char) (l : List Char) :
    rfindIdxCh c (l ++ [c]) = some l.length := by
  induction l with
  | nil => simp [rfindIdxCh]
  | cons x xs ih => simp [rfindIdxCh, ih]

theorem extractSpan_wrapped (pre mid suf : List Char)
    (hpre : lbrace ∉ pre) (hsuf : rbrace ∉ suf) :
    extractSpan (pre ++ (lbrace :: mid ++ [rbrace]) ++ suf)
      = some (lbrace :: mid ++ [rbrace]) := by
  have hfind : findIdxCh lbrace (pre ++ (lbrace :: mid ++ [rbrace]) ++ suf)
      = some pre.length := by
    rw [List.append_assoc, findIdxCh_append_of_not_mem _ _ _ hpre]
    simp [findIdxCh]
  have hshape : pre ++ (lbrace :: mid ++ [rbrace]) ++ suf
      = ((pre ++ lbrace :: mid) ++ [rbrace]) ++ suf := by simp
  have hrfind : rfindIdxCh rbrace (pre ++ (lbrace :: mid ++ [rbrace]) ++ suf)
      = some (pre.length + mid.length + 1) := by
    rw [hshape, rfindIdxCh_append_of_not_mem _ _ _ hsuf, rfindIdxCh_concat_self]
    simp only [List.length_append, List.length_cons, Option.some.injEq]
    omega
  unfold extractSpan
  rw [hfind, hrfind]
  dsimp only
  have harith : pre.length + mid.length + 1 + 1 - pre.length = mid.length + 2 := by omega
  have hdrop : (pre ++ (lbrace :: mid ++ [rbrace]) ++ suf).drop pre.length
      = (lbrace :: mid ++ [rbrace]) ++ suf := by
    rw [List.append_assoc]
    exact List.drop_left _ _
  rw [harith, hdrop]
  have hlen : (lbrace :: mid ++ [rbrace]).length = mid.length + 2 := by simp
  rw [← hlen, List.take_left]

/-- C3 (amended): a reply consisting of one well-formed JSON payload (an
object text, so it starts with a left brace and ends with a right brace)
surrounded by prose interprets identically to the payload alone, provided the
prose before the payload contains no left brace and the prose after it
contains no right brace. -/
theorem c3_roundtrip_amended (pre mid suf : List Char)
    (hpre : lbrace ∉ pre) (hsuf : rbrace ∉ suf) :
    parse_bedrock_response (pre ++ (lbrace :: mid ++ [rbrace]) ++ suf)
      = parse_bedrock_response (lbrace :: mid ++ [rbrace]) := by
  unfold parse_bedrock_response
  rw [extractSpan_wrapped pre mid suf hpre hsuf]
  have h2 : extractSpan (lbrace :: mid ++ [rbrace]) = some (lbrace :: mid ++ [rbrace]) := by
    simpa using extractSpan_wrapped [] mid [] (by simp) (by simp)
  rw [h2]

/-- Witness for the amended C3 round-trip at a concrete prose wrapping. -/
theorem c3_roundtrip_amended_witness :
    (lbrace ∉ "Here is the analysis: ".toList ∧ rbrace ∉ " Let me know.".toList)
    ∧ parse_bedrock_response ("Here is the analysis: ".toList
        ++ (lbrace :: "\"monthly_cost\": 10, \"cost_breakdown\": \x7b\x7d".toList
              ++ [rbrace])
        ++ " Let me know.".toList)
      = parse_bedrock_response
          (lbrace :: "\"monthly_cost\": 10, \"cost_breakdown\": \x7b\x7d".toList
            ++ [rbrace]) :=
  ⟨⟨by decide, by decide⟩, c3_roundtrip_amended _ _ _ (by decide) (by decide)⟩

/-- A well-formed structured payload. -/
def c3Payload : String :=
  "\x7b\"monthly_cost\": 10, \"cost_breakdown\": \x7b\"compute\": 10\x7d\x7d"

/-- C3 counterexample: the same well-formed payload, wrapped in prose that
happens to contain a stray left brace, no longer interprets like the payload
alone — the brace-scan starts at the stray brace, the selected span fails to
decode, and the interpreter returns no estimate, refuting the claim for
arbitrary prose. -/
theorem c3_roundtrip_counterexample :
    parse_bedrock_response ("Here is \x7bthe analysis: " ++ c3Payload).toList
        = Option.none
    ∧ (parse_bedrock_response c3Payload.toList).isSome = true
    ∧ parse_bedrock_response ("Here is \x7bthe analysis: " ++ c3Payload).toList
        ≠ parse_bedrock_response c3Payload.toList := by
  refine ⟨rfl, rfl, ?_⟩
  intro h
  have h2 : (parse_bedrock_response c3Payload.toList).isSome = true := rfl
  rw [← h] at h2
  have h1 : parse_bedrock_response ("Here is \x7bthe analysis: " ++ c3Payload).toList
      = Option.none := rfl
  rw [h1] at h2
  simp at h2

/-- C4: the Response Interpreter is total over reply texts: it yields the
explicit no-estimate result (`None`) whenever no brace-delimited span exists,
the span fails to decode, or the decoded object lacks `monthly_cost` or
`cost_breakdown`; any estimate it does return carries both mandatory fields;
and a resource whose reply interprets to `None` is absent from the aggregate
breakdown rather than crashing the run. -/
theorem c4_interpreter_never_raises (cs : List Char) :
    (extractSpan cs = Option.none → parse_bedrock_response cs = Option.none)
    ∧ (∀ js, extractSpan cs = some js → loads js = Option.none →
        parse_bedrock_response cs = Option.none)
    ∧ (∀ js v, extractSpan cs = some js → loads js = some v →
        ¬ (pyContains "monthly_cost" v = .ok true
            ∧ pyContains "cost_breakdown" v = .ok true) →
        parse_bedrock_response cs = Option.none)
    ∧ (parse_bedrock_response cs = Option.none
        ∨ ∃ d, parse_bedrock_response cs = some d
            ∧ pyContains "monthly_cost" d = .ok true
            ∧ pyContains "cost_breakdown" d = .ok true)
    ∧ (∀ (b : String → Except PyErr String) region asOfDate
        (rs : ClassifiedResources) (r : Resource) (text : String),
        ((rs.create ++ rs.update).map Resource.address).Nodup →
        r ∈ rs.create ++ rs.update →
        b (create_cost_analysis_prompt region asOfDate r.type r.values) = .ok text →
        parse_bedrock_response text.toList = Option.none →
        lookupD
          (analyze_costs_with_bedrock b region asOfDate rs).analysis.monthly_cost_breakdown
          r.address = Option.none) := by
  refine ⟨?_, ?_, ?_, ?_, ?_⟩
  · intro h
    simp [parse_bedrock_response, h]
  · intro js h hl
    simp [parse_bedrock_response, h, hl]
  · intro js v h hl hcon
    cases hc1 : pyContains "monthly_cost" v with
    | error e => simp [parse_bedrock_response, h, hl, hc1]
    | ok b1 =>
      cases b1 with
      | false => simp [parse_bedrock_response, h, hl, hc1]
      | true =>
        cases hc2 : pyContains "cost_breakdown" v with
        | error e => simp [parse_bedrock_response, h, hl, hc1, hc2]
        | ok b2 =>
          cases b2 with
          | false => simp [parse_bedrock_response, h, hl, hc1, hc2]
          | true => exact absurd ⟨hc1, hc2⟩ hcon
  · cases h1 : extractSpan cs with
    | none => exact Or.inl (by simp [parse_bedrock_response, h1])
    | some js =>
      cases h2 : loads js with
      | none => exact Or.inl (by simp [parse_bedrock_response, h1, h2])
      | some v =>
        cases h3 : pyContains "monthly_cost" v with
        | error e => exact Or.inl (by simp [parse_bedrock_response, h1, h2, h3])
        | ok b1 =>
          cases b1 with
          | false => exact Or.inl (by simp [parse_bedrock_response, h1, h2, h3])
          | true =>
            cases h4 : pyContains "cost_breakdown" v with
            | error e =>
              exact Or.inl (by simp [parse_bedrock_response, h1, h2, h3, h4])
            | ok b2 =>
              cases b2 with
              | false =>
                exact Or.inl (by simp [parse_bedrock_response, h1, h2, h3, h4])
              | true =>
                exact Or.inr ⟨v,
                  by simp [parse_bedrock_response, h1, h2, h3, h4], h3, h4⟩
  · intro b region asOfDate rs r text hnd hr hb hp
    have hnone : get_resource_cost_estimate b region asOfDate r = Option.none := by
      unfold get_resource_cost_estimate
      dsimp only
      rw [hb]
      exact hp
    unfold analyze_costs_with_bedrock
    rw [foldl_lookup_found b region asOfDate (rs.create ++ rs.update)
        ⟨initAnalysis, [], []⟩ r.address hnd (by rfl),
      find?_addr_first _ _ hnd hr, Option.some_bind]
    simp [estEff, hnone]

/-- Witness for C4: a prose-only reply yields the no-estimate result. -/
theorem c4_interpreter_never_raises_witness :
    extractSpan "The model replied with prose only.".toList = Option.none
    ∧ parse_bedrock_response "The model replied with prose only.".toList = Option.none :=
  ⟨rfl, (c4_interpreter_never_raises _).1 rfl⟩

/-! ## Plan Ingestor claims -/

/-- Whether one change record has the shape `classify` expects: a mapping
whose `change` value, when present, is a mapping whose `actions` value, when
present, is a list. -/
def recordOkB : PyValue → Bool
  | .dict kvs =>
    match lookupD kvs "change" with
    | some (.dict ckvs) =>
      (match lookupD ckvs "actions" with
       | some (.list _) => true
       | some _ => false
       | Option.none => true)
    | some _ => false
    | Option.none => true
  | _ => false

/-- Whether a plan document is well formed for `classify`: a mapping whose
`resource_changes` collection, when present, is a list of well-shaped
records. -/
def wellFormedPlanB : PyValue → Bool
  | .dict kvs =>
    match lookupD kvs "resource_changes" with
    | Option.none => true
    | some (.list cs) => cs.all recordOkB
    | some _ => false
  | _ => false

/-- The record's `change` value, defaulted as `change.get('change', {})`. -/
def changeValOf (c : PyValue) : PyValue :=
  match c with
  | .dict kvs => (lookupD kvs "change").getD (.dict [])
  | _ => .dict []

/-- The record's action collection, defaulted as `.get('actions', [])`. -/
def actionsOf (c : PyValue) : PyValue :=
  match changeValOf c with
  | .dict ckvs => (lookupD ckvs "actions").getD (.list [])
  | _ => .list []

/-- Whether the record's action list contains the action string (Python
`a in actions` on a list: element equality against the string). -/
def hasActionB (c : PyValue) (a : String) : Bool :=
  match actionsOf c with
  | .list xs => xs.any (eqStr a)
  | _ => false

/-- The value `_format_resource` produces on a well-shaped record, as a total
function. -/
def formatResourceD (c : PyValue) : Resource :=
  match c with
  | .dict kvs =>
    ⟨asStr ((lookupD kvs "type").getD (.str "")),
     asStr ((lookupD kvs "name").getD (.str "")),
     asStr ((lookupD kvs "address").getD (.str "")),
     (match changeValOf c with
      | .dict ckvs => (lookupD ckvs "after").getD (.dict [])
      | _ => .dict []),
     asStr ((lookupD kvs "provider_name").getD (.str "aws"))⟩
  | _ => ⟨"", "", "", .dict [], ""⟩

theorem any_key_eq_lookupD_isSome (kvs : List (String × PyValue)) (k : String) :
    kvs.any (fun p => p.1 = k) = (lookupD kvs k).isSome := by
  induction kvs with
  | nil => rfl
  | cons hd tl ih =>
    obtain ⟨a, b⟩ := hd
    by_cases h : a = k <;> simp [lookupD_cons, h, ih]

theorem except_ok_bind {α β : Type} (a : α) (f : α → Except PyErr β) :
    (Except.ok a >>= f) = f a := rfl

theorem pyGetD_change (c : PyValue) (h : recordOkB c = true) :
    pyGetD c "change" (.dict []) = .ok (changeValOf c) := by
  cases c with
  | dict kvs => simp [pyGetD, changeValOf]
  | null => simp [recordOkB] at h
  | bool b => simp [recordOkB] at h
  | num q => simp [recordOkB] at h
  | str s => simp [recordOkB] at h
  | list xs => simp [recordOkB] at h

theorem changeValOf_dict (c : PyValue) (h : recordOkB c = true) :
    ∃ ckvs, changeValOf c = .dict ckvs := by
  cases c with
  | dict kvs =>
    simp only [recordOkB] at h
    cases hc : lookupD kvs "change" with
    | none => exact ⟨[], by simp [changeValOf, hc]⟩
    | some ch =>
      rw [hc] at h
      cases ch with
      | dict ckvs => exact ⟨ckvs, by simp [changeValOf, hc]⟩
      | null => simp at h
      | bool b => simp at h
      | num q => simp at h
      | str s => simp at h
      | list xs => simp at h
  | null => simp [recordOkB] at h
  | bool b => simp [recordOkB] at h
  | num q => simp [recordOkB] at h
  | str s => simp [recordOkB] at h
  | list xs => simp [recordOkB] at h

theorem actionsOf_list (c : PyValue) (h : recordOkB c = true) :
    ∃ xs, actionsOf c = .list xs := by
  cases c with
  | dict kvs =>
    simp only [recordOkB] at h
    cases hc : lookupD kvs "change" with
    | none => exact ⟨[], by simp [actionsOf, changeValOf, hc, lookupD_nil]⟩
    | some ch =>
      rw [hc] at h
      cases ch with
      | dict ckvs =>
        dsimp only at h
        cases ha : lookupD ckvs "actions" with
        | none => exact ⟨[], by simp [actionsOf, changeValOf, hc, ha]⟩
        | some av =>
          rw [ha] at h
          cases av with
          | list xs => exact ⟨xs, by simp [actionsOf, changeValOf, hc, ha]⟩
          | null => simp at h
          | bool b => simp at h
          | num q => simp at h
          | str s => simp at h
          | dict kvs2 => simp at h
      | null => simp at h
      | bool b => simp at h
      | num q => simp at h
      | str s => simp at h
      | list xs => simp at h
  | null => simp [recordOkB] at h
  | bool b => simp [recordOkB] at h
  | num q => simp [recordOkB] at h
  | str s => simp [recordOkB] at h
  | list xs => simp [recordOkB] at h

theorem pyGetD_actions (c : PyValue) (h : recordOkB c = true) :
    pyGetD (changeValOf c) "actions" (.list []) = .ok (actionsOf c) := by
  obtain ⟨ckvs, hck⟩ := changeValOf_dict c h
  rw [hck]
  simp [pyGetD, actionsOf, hck]

theorem pyContains_actions (c : PyValue) (a : String) (h : recordOkB c = true) :
    pyContains a (actionsOf c) = .ok (hasActionB c a) := by
  obtain ⟨xs, hxs⟩ := actionsOf_list c h
  rw [hxs]
  simp [pyContains, hasActionB, hxs]

theorem format_resource_eq (c : PyValue) (h : recordOkB c = true) :
    format_resource c = .ok (formatResourceD c) := by
  obtain ⟨ckvs, hck⟩ := changeValOf_dict c h
  cases c with
  | dict kvs =>
    simp only [format_resource, formatResourceD, pyGetD, except_ok_bind]
    rw [show ((lookupD kvs "change").getD (PyValue.dict []))
        = changeValOf (PyValue.dict kvs) from rfl, hck]
    simp [hck]
  | null => simp [recordOkB] at h
  | bool b => simp [recordOkB] at h
  | num q => simp [recordOkB] at h
  | str s => simp [recordOkB] at h
  | list xs => simp [recordOkB] at h

theorem extract_step_eq (acc : ClassifiedResources) (c : PyValue)
    (h : recordOkB c = true) :
    extract_step acc c = .ok (
      if hasActionB c "create" then
        { acc with create := acc.create ++ [formatResourceD c] }
      else if hasActionB c "update" then
        { acc with update := acc.update ++ [formatResourceD c] }
      else if hasActionB c "delete" then
        { acc with delete := acc.delete ++ [formatResourceD c] }
      else acc) := by
  unfold extract_step
  rw [pyGetD_change c h, except_ok_bind, pyGetD_actions c h, except_ok_bind,
    pyContains_actions c "create" h, except_ok_bind]
  by_cases h1 : hasActionB c "create" = true
  · simp [h1, format_resource_eq c h, except_ok_bind]
  · rw [if_neg (by simpa using h1)]
    rw [pyContains_actions c "update" h, except_ok_bind]
    by_cases h2 : hasActionB c "update" = true
    · simp [h1, h2, format_resource_eq c h, except_ok_bind]
    · rw [if_neg (by simpa using h2)]
      rw [pyContains_actions c "delete" h, except_ok_bind]
      by_cases h3 : hasActionB c "delete" = true
      · simp [h1, h2, h3, format_resource_eq c h, except_ok_bind]
      · rw [if_neg (by simpa using h3)]
        simp [h1, h2, h3]
        rfl

theorem extract_fold_eq (cs : List PyValue) (acc : ClassifiedResources)
    (h : cs.all recordOkB = true) :
    cs.foldlM extract_step acc = .ok
      ⟨acc.create ++ (cs.filter (fun c => hasActionB c "create")).map formatResourceD,
       acc.update ++ (cs.filter
         (fun c => !hasActionB c "create" && hasActionB c "update")).map formatResourceD,
       acc.delete ++ (cs.filter
         (fun c => !hasActionB c "create" && !hasActionB c "update"
            && hasActionB c "delete")).map formatResourceD⟩ := by
  induction cs generalizing acc with
  | nil => simp [pure, Except.pure]
  | cons c cs ih =>
    simp only [List.all_cons, Bool.and_eq_true] at h
    rw [List.foldlM_cons, extract_step_eq _ _ h.1]
    by_cases h1 : hasActionB c "create" = true
    · rw [if_pos h1, except_ok_bind, ih _ h.2]
      simp [List.filter_cons, h1]
    · rw [if_neg h1]
      by_cases h2 : hasActionB c "update" = true
      · rw [if_pos h2, except_ok_bind, ih _ h.2]
        simp [List.filter_cons, h1, h2]
      · rw [if_neg h2]
        by_cases h3 : hasActionB c "delete" = true
        · rw [if_pos h3, except_ok_bind, ih _ h.2]
          simp [List.filter_cons, h1, h2, h3]
        · rw [if_neg h3, except_ok_bind, ih _ h.2]
          simp [List.filter_cons, h1, h2, h3]

/-- C5: the Plan Ingestor's classify step is a pure transformation (a total
function of the plan document alone, by construction) that fails only on
malformed input: every well-formed document — a mapping whose change records
have the expected shape — classifies successfully, so an error (the spec's
`MalformedPlanError`, realized by the Python code as builtin
`TypeError`/`AttributeError`) occurs only on malformed input. -/
theorem c5_classify_fails_only_on_malformed (plan : PyValue)
    (h : wellFormedPlanB plan = true) :
    (∃ rs, extract_resources plan = .ok rs)
    ∧ ∀ e, extract_resources plan ≠ .error e := by
  have hok : ∃ rs, extract_resources plan = .ok rs := by
    cases plan with
    | dict kvs =>
      simp only [wellFormedPlanB] at h
      cases hrc : lookupD kvs "resource_changes" with
      | none =>
        have hm : kvs.any (fun p => p.1 = "resource_changes") = false := by
          rw [any_key_eq_lookupD_isSome, hrc]
          rfl
        refine ⟨⟨[], [], []⟩, ?_⟩
        unfold extract_resources
        simp only [pyContains, hm, except_ok_bind]
        rw [if_pos (by simp)]
        rfl
      | some rc =>
        rw [hrc] at h
        cases rc with
        | list cs =>
          dsimp only at h
          have hm : kvs.any (fun p => p.1 = "resource_changes") = true := by
            rw [any_key_eq_lookupD_isSome, hrc]
            rfl
          exact ⟨_, by
            unfold extract_resources
            simp only [pyContains, hm, except_ok_bind]
            rw [if_neg (by simp)]
            simp only [pySubscript, hrc, except_ok_bind, pyIter]
            exact extract_fold_eq cs ⟨[], [], []⟩ h⟩
        | null => simp at h
        | bool b => simp at h
        | num q => simp at h
        | str s => simp at h
        | dict kvs2 => simp at h
    | null => exact absurd h (by simp [wellFormedPlanB])
    | bool b => exact absurd h (by simp [wellFormedPlanB])
    | num q => exact absurd h (by simp [wellFormedPlanB])
    | str s => exact absurd h (by simp [wellFormedPlanB])
    | list xs => exact absurd h (by simp [wellFormedPlanB])
  obtain ⟨rs, hrs⟩ := hok
  exact ⟨⟨rs, hrs⟩, fun e he => by rw [hrs] at he; cases he⟩

/-- A well-formed two-record plan document. -/
def wPlan : PyValue :=
  .dict [("resource_changes", .list
    [.dict [("type", .str "aws_instance"), ("name", .str "web"),
            ("address", .str "aws_instance.web"),
            ("change", .dict [("actions", .list [.str "create"]),
                              ("after", .dict [("instance_type", .str "t3.micro")])])],
     .dict [("type", .str "aws_ebs_volume"), ("name", .str "old"),
            ("address", .str "aws_ebs_volume.old"),
            ("change", .dict [("actions", .list [.str "delete"])])]])]

/-- Witness for C5: a concrete well-formed plan classifies successfully. -/
theorem c5_classify_fails_only_on_malformed_witness :
    wellFormedPlanB wPlan = true
    ∧ (∃ rs, extract_resources wPlan = .ok rs)
    ∧ ∀ e, extract_resources wPlan ≠ .error e :=
  ⟨by decide, (c5_classify_fails_only_on_malformed wPlan (by decide)).1,
    (c5_classify_fails_only_on_malformed wPlan (by decide)).2⟩

/-- C6: on well-shaped records the classify loop tests membership in the
fixed order `create`, `update`, `delete` with first match winning — the
buckets are exactly the corresponding filters, so a record whose action list
contains `create` lands in the create bucket even when other actions are also
listed, every record lands in at most one bucket, and records matching none
are skipped. -/
theorem c6_first_match_wins (cs : List PyValue) (h : cs.all recordOkB = true) :
    extract_resources (.dict [("resource_changes", .list cs)])
      = .ok ⟨(cs.filter (fun c => hasActionB c "create")).map formatResourceD,
             (cs.filter (fun c => !hasActionB c "create"
               && hasActionB c "update")).map formatResourceD,
             (cs.filter (fun c => !hasActionB c "create" && !hasActionB c "update"
               && hasActionB c "delete")).map formatResourceD⟩
    ∧ ∀ c ∈ cs, hasActionB c "create" = true →
        ∀ rs, extract_resources (.dict [("resource_changes", .list cs)]) = .ok rs →
          formatResourceD c ∈ rs.create := by
  have hmain : extract_resources (.dict [("resource_changes", .list cs)])
      = cs.foldlM extract_step ⟨[], [], []⟩ := rfl
  have hfold := extract_fold_eq cs ⟨[], [], []⟩ h
  constructor
  · rw [hmain, hfold]
    simp
  · intro c hc hcr rs hrs
    rw [hmain, hfold] at hrs
    cases hrs
    simp only [List.nil_append]
    exact List.mem_map_of_mem _ (List.mem_filter.mpr ⟨hc, hcr⟩)

/-- A record listing several actions, `create` first matched. -/
def wMultiRecord : PyValue :=
  .dict [("type", .str "aws_instance"), ("name", .str "multi"),
         ("address", .str "aws_instance.multi"),
         ("change", .dict [("actions",
            .list [.str "create", .str "update", .str "delete"])])]

/-- Witness for C6: a record listing `create`, `update` and `delete` lands in
the create bucket only. -/
theorem c6_first_match_wins_witness :
    [wMultiRecord].all recordOkB = true
    ∧ extract_resources (.dict [("resource_changes", .list [wMultiRecord])])
      = .ok ⟨[formatResourceD wMultiRecord], [], []⟩ := by
  refine ⟨by decide, ?_⟩
  have h := (c6_first_match_wins [wMultiRecord] (by decide)).1
  rw [h]
  rfl

/-! ## Report Renderer claims -/

/-- C8: the Report Renderer prints every monetary value (all of which pass
through the `:.2f` embedding `fmt2f`) with exactly two decimal places — an
optional minus sign, the integer part, a dot, then exactly two decimal
digits — and rendering an aggregate whose `total_estimated_cost` is
`123.456` produces the summary line carrying the literal substring
`$123.46`. -/
theorem c8_two_decimal_money (x : PyNum) (region now : String) :
    (∃ (sgn : String) (i d1 d2 : ℕ), (sgn = "" ∨ sgn = "-") ∧ d1 < 10 ∧ d2 < 10
      ∧ fmt2f x = sgn ++ Nat.repr i ++ "."
          ++ String.mk [Nat.digitChar d1, Nat.digitChar d2])
    ∧ (⟨123456, 999⟩ : PyNum).toRat = 123.456
    ∧ (∃ lines,
        generate_cost_report_lines region now ⟨⟨123456, 999⟩, [], [], [], []⟩
          = .ok lines
        ∧ "Total Estimated Monthly Cost: $123.46" ∈ lines
        ∧ listInfix "$123.46".toList
            "Total Estimated Monthly Cost: $123.46".toList = true) := by
  refine ⟨?_, ?_, ?_⟩
  · refine ⟨if x.n < 0 then "-" else "", _, _, _, by split <;> simp, ?_, ?_, rfl⟩
    · exact Nat.mod_lt _ (by norm_num)
    · exact Nat.mod_lt _ (by norm_num)
  · norm_num [PyNum.toRat, PyNum.den]
  · refine ⟨[eq80, "AWS TERRAFORM COST ANALYSIS REPORT", eq80,
      "Generated on: " ++ now, "Region: " ++ region, "",
      "COST SUMMARY", dash40, "Total Estimated Monthly Cost: $123.46", ""],
      rfl, by simp, by decide⟩

/-- C9: when two non-delete resources share the same address and both yield
valid estimates, `monthly_cost_breakdown` retains only the later resource's
estimate (the earlier entry is overwritten in place) while
`total_estimated_cost` still includes both `monthly_cost` values — so
without address uniqueness the total can exceed the sum over the breakdown
entries. -/
theorem c9_duplicate_address_overwrites (b : String → Except PyErr String)
    (region asOfDate : String) (r1 r2 : Resource) (d1 d2 : PyValue)
    (haddr : r2.address = r1.address)
    (h1 : get_resource_cost_estimate b region asOfDate r1 = some d1)
    (h2 : get_resource_cost_estimate b region asOfDate r2 = some d2) :
    (analyze_costs_with_bedrock b region asOfDate
        ⟨[r1, r2], [], []⟩).analysis.monthly_cost_breakdown = [(r1.address, d2)]
    ∧ (analyze_costs_with_bedrock b region asOfDate
        ⟨[r1, r2], [], []⟩).analysis.total_estimated_cost.toRat
      = monthlyCostOf d1 + monthlyCostOf d2
    ∧ (0 < monthlyCostOf d1 →
        sumMonthly (analyze_costs_with_bedrock b region asOfDate
            ⟨[r1, r2], [], []⟩).analysis.monthly_cost_breakdown
          < (analyze_costs_with_bedrock b region asOfDate
              ⟨[r1, r2], [], []⟩).analysis.total_estimated_cost.toRat) := by
  have e1 := estEff_eq_of_est_some b region asOfDate r1 d1 h1
  have e2 := estEff_eq_of_est_some b region asOfDate r2 d2 h2
  have hrun : analyze_costs_with_bedrock b region asOfDate ⟨[r1, r2], [], []⟩
      = analyzeStep b region asOfDate
          (analyzeStep b region asOfDate ⟨initAnalysis, [], []⟩ r1) r2 := rfl
  have hbd1 : (analyzeStep b region asOfDate
      ⟨initAnalysis, [], []⟩ r1).analysis.monthly_cost_breakdown
      = [(r1.address, d1)] := by
    rw [analyzeStep_breakdown, e1]
    rfl
  have htot1 : (analyzeStep b region asOfDate
      ⟨initAnalysis, [], []⟩ r1).analysis.total_estimated_cost.toRat
      = monthlyCostOf d1 := by
    rw [analyzeStep_total, e1]
    simp [initAnalysis, PyNum.toRat_ofInt]
  have hbd2 : (analyzeStep b region asOfDate
      (analyzeStep b region asOfDate ⟨initAnalysis, [], []⟩ r1) r2).analysis.monthly_cost_breakdown
      = [(r1.address, d2)] := by
    rw [analyzeStep_breakdown, e2, hbd1]
    dsimp only
    rw [haddr]
    simp [dictInsert]
  have htot2 : (analyzeStep b region asOfDate
      (analyzeStep b region asOfDate ⟨initAnalysis, [], []⟩ r1) r2).analysis.total_estimated_cost.toRat
      = monthlyCostOf d1 + monthlyCostOf d2 := by
    rw [analyzeStep_total, e2, htot1]
  refine ⟨by rw [hrun]; exact hbd2, by rw [hrun]; exact htot2, ?_⟩
  intro hpos
  rw [hrun, hbd2, htot2]
  simp only [sumMonthly, List.map_cons, List.map_nil, List.sum_cons, List.sum_nil,
    add_zero]
  linarith

/-- A backend answering a 10-dollar estimate for compute-instance prompts and
a 5-dollar estimate otherwise. -/
def wBackend3 : String → Except PyErr String := fun p =>
  if listInfix "aws_instance".toList p.toList then
    .ok "\x7b\"monthly_cost\": 10, \"cost_breakdown\": \x7b\"compute\": 10\x7d\x7d"
  else
    .ok "\x7b\"monthly_cost\": 5, \"cost_breakdown\": \x7b\"storage\": 5\x7d\x7d"

/-- First resource at the shared address. -/
def wR1 : Resource := ⟨"aws_instance", "a", "shared.addr", .dict [], "aws"⟩

/-- Second resource at the same address. -/
def wR2 : Resource := ⟨"aws_nat_gateway", "b", "shared.addr", .dict [], "aws"⟩

/-- The estimate interpreted for `wR1`. -/
def wD1 : PyValue :=
  .dict [("monthly_cost", .num ⟨10, 0⟩), ("cost_breakdown", .dict [("compute", .num ⟨10, 0⟩)])]

/-- The estimate interpreted for `wR2`. -/
def wD2 : PyValue :=
  .dict [("monthly_cost", .num ⟨5, 0⟩), ("cost_breakdown", .dict [("storage", .num ⟨5, 0⟩)])]

/-- Witness for C9 at two concrete same-address resources. -/
theorem c9_duplicate_address_overwrites_witness :
    (wR2.address = wR1.address
     ∧ get_resource_cost_estimate wBackend3 "us-east-1" "2026-01-01" wR1 = some wD1
     ∧ get_resource_cost_estimate wBackend3 "us-east-1" "2026-01-01" wR2 = some wD2)
    ∧ (analyze_costs_with_bedrock wBackend3 "us-east-1" "2026-01-01"
        ⟨[wR1, wR2], [], []⟩).analysis.monthly_cost_breakdown = [(wR1.address, wD2)]
    ∧ (analyze_costs_with_bedrock wBackend3 "us-east-1" "2026-01-01"
        ⟨[wR1, wR2], [], []⟩).analysis.total_estimated_cost.toRat
      = monthlyCostOf wD1 + monthlyCostOf wD2 := by
  have h := c9_duplicate_address_overwrites wBackend3 "us-east-1" "2026-01-01"
    wR1 wR2 wD1 wD2 rfl (by rfl) (by rfl)
  exact ⟨⟨rfl, by rfl, by rfl⟩, h.1, h.2.1⟩

theorem except_error_bind {α β : Type} (e : PyErr) (f : α → Except PyErr β) :
    ((Except.error e : Except PyErr α) >>= f) = .error e := rfl

/-- A reply the interpreter accepts (both mandatory fields present) whose
`hidden_costs` entry lacks the `type` key. -/
def wBadReply : String :=
  "\x7b\"monthly_cost\": 12, \"cost_breakdown\": \x7b\"compute\": 12\x7d, "
  ++ "\"hidden_costs\": [\x7b\"description\": \"daily snapshots\", "
  ++ "\"estimated_monthly_cost\": 3\x7d]\x7d"

/-- C10: the Report Renderer is not total over the estimates the Response
Interpreter accepts as valid: a hidden-cost entry lacking the `type` key
(with a numeric or absent `estimated_monthly_cost`) makes
`generate_cost_report` raise `KeyError` — the interpreter validates only
`monthly_cost` and `cost_breakdown`, so such entries reach rendering, as the
end-to-end conjunct shows on a concrete run — whereas a missing
`estimated_monthly_cost` is silently defaulted to `$0.00`. -/
theorem c10_report_keyerror_on_untyped_entries
    (region now : String) (total : PyNum) (kvs : List (String × PyValue))
    (dts recs : List PyValue) (q : PyNum)
    (hq : pyToNum ((lookupD kvs "estimated_monthly_cost").getD (.num (.ofInt 0)))
      = some q)
    (hnotype : lookupD kvs "type" = Option.none) :
    generate_cost_report_lines region now ⟨total, [], [.dict kvs], dts, recs⟩
      = .error (.keyError "type")
    ∧ ((parse_bedrock_response wBadReply.toList).isSome = true
        ∧ (analyze_costs_with_bedrock (fun _ => .ok wBadReply) "us-east-1" "2026-01-01"
            wSet).analysis.hidden_costs
          = [.dict [("description", .str "daily snapshots"),
                    ("estimated_monthly_cost", .num ⟨3, 0⟩)]]
        ∧ generate_cost_report_lines "us-east-1" "2026-01-01"
            (analyze_costs_with_bedrock (fun _ => .ok wBadReply) "us-east-1" "2026-01-01"
              wSet).analysis
          = .error (.keyError "type"))
    ∧ (∃ lines,
        generate_cost_report_lines "us-east-1" "2026-01-01"
          ⟨.ofInt 0, [],
            [.dict [("type", .str "backup"), ("description", .str "daily snapshots")]],
            [], []⟩ = .ok lines
        ∧ "• backup: $0.00/month" ∈ lines) := by
  have hentry : renderCostEntry (.ofInt 0) (.dict kvs) = .error (.keyError "type") := by
    unfold renderCostEntry
    simp only [pyGetD, except_ok_bind]
    rw [hq]
    simp only [except_ok_bind, pySubscript, hnotype, except_error_bind]
  have hloop : renderCostLoop (.ofInt 0) [.dict kvs] = .error (.keyError "type") := by
    unfold renderCostLoop
    rw [hentry, except_error_bind]
  have hsec : renderCostSection "HIDDEN COSTS" "Total Hidden Costs: $" [.dict kvs]
      = .error (.keyError "type") := by
    unfold renderCostSection
    rw [if_neg (by simp)]
    rw [hloop, except_error_bind]
  refine ⟨?_, ⟨rfl, rfl, rfl⟩, ⟨_, rfl, by decide⟩⟩
  unfold generate_cost_report_lines
  dsimp only
  rw [show renderBreakdownSection [] = Except.ok [] from rfl, except_ok_bind,
    hsec, except_error_bind]

/-- Witness for C10 at a concrete untyped hidden-cost entry. -/
theorem c10_report_keyerror_on_untyped_entries_witness :
    (pyToNum ((lookupD [("description", PyValue.str "daily snapshots"),
          ("estimated_monthly_cost", PyValue.num ⟨3, 0⟩)]
          "estimated_monthly_cost").getD (.num (.ofInt 0))) = some ⟨3, 0⟩
     ∧ lookupD [("description", PyValue.str "daily snapshots"),
          ("estimated_monthly_cost", PyValue.num ⟨3, 0⟩)] "type" = Option.none)
    ∧ generate_cost_report_lines "us-east-1" "2026-01-01"
        ⟨.ofInt 0, [], [.dict [("description", .str "daily snapshots"),
          ("estimated_monthly_cost", .num ⟨3, 0⟩)]], [], []⟩
      = .error (.keyError "type") := by
  have h := c10_report_keyerror_on_untyped_entries "us-east-1" "2026-01-01" (.ofInt 0)
    [("description", .str "daily snapshots"), ("estimated_monthly_cost", .num ⟨3, 0⟩)]
    [] [] ⟨3, 0⟩ (by rfl) (by rfl)
  exact ⟨⟨by rfl, by rfl⟩, h.1⟩

end TerraCost
